import Mathlib

/-!
Shallow embedding of src/relay/op/type_relations.cc: the type-relation
evaluation engine (IdentityRel, ConcreteBroadcast, BroadcastRel,
BroadcastCompRel, ConcreteConcatRel, ConcatRel) together with the
dimension evaluator ToInt and the downcast helper ToTensorType.

Modelling conventions:
- machine integers are Lean Int (dimension values fit comfortably);
- a CHECK failure aborts the call; every abort channel is modelled as an
  Except error.  The error constructors follow the taxonomy of the spec:
  ToInt's CHECK(imm) is malformedDimension, the broadcasting/concat
  dimension CHECKs are dimensionMismatch, CHECK_LT(1, fields.size()) and
  the non-tuple throw in ConcreteConcatRel are invalidArgument, the
  reverse-inference throw in ConcatRel is unsupported,
  CHECK_EQ(t1 dtype, t2 dtype) is dtypeMismatch, and the remaining
  structural CHECKs (arity CHECK_EQ, larger/smaller size CHECK_EQ,
  Downcast failures) are checkFailed;
- the undefined-behaviour vector access dims[i - 1] in ConcreteConcatRel
  is modelled by List.get?; an out-of-bounds access is the distinguished
  error outOfBounds.
-/

namespace TypeRelations

/-- Element kind of a tensor (the DataType / dtype of the source). -/
inductive DType where
  | intT : Nat → DType
  | floatT : Nat → DType
  | boolT : DType
deriving DecidableEq

/-- A shape-dimension expression: either a literal integer constant
(tvm::ir::IntImm) or some other, non-constant expression. -/
inductive ShapeExpr where
  | intImm : Int → ShapeExpr
  | symbolic : Nat → ShapeExpr
deriving DecidableEq

/-- The Type variants that participate in type relations. -/
inductive Ty where
  | tensor : List ShapeExpr → DType → Ty
  | tuple : List Ty → Ty
  | incomplete : Nat → Ty


mutual

/-- Decidable equality for the nested inductive Ty. -/
def tyDecEq : (a b : Ty) → Decidable (a = b)
  | .tensor s1 d1, .tensor s2 d2 =>
    if h1 : s1 = s2 then
      if h2 : d1 = d2 then isTrue (by rw [h1, h2])
      else isFalse (fun h => h2 (by injection h))
    else isFalse (fun h => h1 (by injection h))
  | .tuple f1, .tuple f2 =>
    match tyListDecEq f1 f2 with
    | isTrue h => isTrue (by rw [h])
    | isFalse h => isFalse (fun hh => h (by injection hh))
  | .incomplete n1, .incomplete n2 =>
    if h : n1 = n2 then isTrue (by rw [h])
    else isFalse (fun hh => h (by injection hh))
  | .tensor _ _, .tuple _ => isFalse (fun h => Ty.noConfusion h)
  | .tensor _ _, .incomplete _ => isFalse (fun h => Ty.noConfusion h)
  | .tuple _, .tensor _ _ => isFalse (fun h => Ty.noConfusion h)
  | .tuple _, .incomplete _ => isFalse (fun h => Ty.noConfusion h)
  | .incomplete _, .tensor _ _ => isFalse (fun h => Ty.noConfusion h)
  | .incomplete _, .tuple _ => isFalse (fun h => Ty.noConfusion h)

/-- Decidable equality for lists of Ty. -/
def tyListDecEq : (a b : List Ty) → Decidable (a = b)
  | [], [] => isTrue rfl
  | x :: xs, y :: ys =>
    match tyDecEq x y, tyListDecEq xs ys with
    | isTrue h1, isTrue h2 => isTrue (by rw [h1, h2])
    | isFalse h1, _ => isFalse (fun h => h1 (by injection h))
    | _, isFalse h2 => isFalse (fun h => h2 (by injection h))
  | [], _ :: _ => isFalse (fun h => List.noConfusion h)
  | _ :: _, [] => isFalse (fun h => List.noConfusion h)

end

instance : DecidableEq Ty := tyDecEq

/-- The abort channels of the source, following the spec taxonomy. -/
inductive RelError where
  | malformedDimension
  | dimensionMismatch : Int → Int → RelError
  | invalidArgument
  | unsupported
  | dtypeMismatch
  | checkFailed
  | outOfBounds
deriving DecidableEq

/-- ToInt: evaluate a dimension expression to an integer; the source
CHECKs that the expression is an IntImm. -/
def ToInt : ShapeExpr → Except RelError Int
  | .intImm v => .ok v
  | .symbolic _ => .error .malformedDimension

/-- ToTensorType: downcast a Type to a TensorType; the source returns a
null TensorType (tested false) on any other variant. -/
def ToTensorType : Ty → Option (List ShapeExpr × DType)
  | .tensor sh d => some (sh, d)
  | _ => none

/-- Test for the IncompleteType variant (the as IncompleteTypeNode test). -/
def isIncomplete : Ty → Bool
  | .incomplete _ => true
  | _ => false

/-- IdentityRel: propagate a concrete input type to an Incomplete output
slot, otherwise return the argument list unchanged. -/
def IdentityRel (types : List Ty) (num_args : Int) : Except RelError (List Ty) :=
  match types with
  | [t0, t1] =>
    match ToTensorType t0, t1 with
    | some (sh, d), .incomplete _ => .ok [.tensor sh d, .tensor sh d]
    | _, _ => .ok [t0, t1]
  | _ => .error .checkFailed

/-- The trailing-aligned compatibility walk of ConcreteBroadcast: both
shapes are traversed from the rightmost dimension inward while both
iterators are valid; each pair is evaluated and checked. -/
def checkBroadcastDims : List ShapeExpr → List ShapeExpr → Except RelError Unit
  | e1 :: r1, e2 :: r2 =>
    match ToInt e1 with
    | .error err => .error err
    | .ok v1 =>
      match ToInt e2 with
      | .error err => .error err
      | .ok v2 =>
        if v1 ≠ v2 ∧ v1 ≠ 1 ∧ v2 ≠ 1 then .error (.dimensionMismatch v1 v2)
        else checkBroadcastDims r1 r2
  | _, _ => .ok ()

/-- The output loop of ConcreteBroadcast: position by position, both
dimensions are CHECKed to be IntImm and the maximum is taken. -/
def maxDims : List ShapeExpr → List ShapeExpr → Except RelError (List ShapeExpr)
  | [], [] => .ok []
  | s :: ss, l :: ls =>
    match s, l with
    | .intImm a, .intImm b =>
      match maxDims ss ls with
      | .error err => .error err
      | .ok rest => .ok (ShapeExpr.intImm (max a b) :: rest)
    | _, _ => .error .malformedDimension
  | _, _ => .error .checkFailed

/-- The padding of (fullLen - suffixLen) dimensions of value 1 pushed
into the vector named smaller before the rank comparison. -/
def broadcastPad (sh1 sh2 : List ShapeExpr) : List ShapeExpr :=
  List.replicate (max sh1.length sh2.length - min sh1.length sh2.length)
    (ShapeExpr.intImm 1)

/-- The vector named larger after the rank-comparison branches: sh2 when
sh1 is shorter, otherwise sh1. -/
def broadcastLarger (sh1 sh2 : List ShapeExpr) : List ShapeExpr :=
  if sh1.length < sh2.length then sh2 else sh1

/-- The vector named smaller after the rank-comparison branches.  In the
source the padding ones are pushed into smaller first, but in the two
branches where sh1 is not shorter than sh2 the vector smaller is then
reassigned to sh2 wholesale, so the padding survives only in the
sh1-shorter branch. -/
def broadcastSmaller (sh1 sh2 : List ShapeExpr) : List ShapeExpr :=
  if sh1.length < sh2.length then broadcastPad sh1 sh2 ++ sh1 else sh2

/-- ConcreteBroadcast: the shape broadcaster of the source; after the
trailing-aligned walk and the larger/smaller construction,
CHECK_EQ(larger.size(), smaller.size()) runs and the output dimensions
are the positionwise maxima. -/
def ConcreteBroadcast (sh1 sh2 : List ShapeExpr) (output_dtype : DType) :
    Except RelError Ty :=
  if sh1.length = 0 ∧ sh2.length = 0 then .ok (.tensor [] output_dtype)
  else
    match checkBroadcastDims sh1.reverse sh2.reverse with
    | .error err => .error err
    | .ok _ =>
      if (broadcastLarger sh1 sh2).length = (broadcastSmaller sh1 sh2).length then
        match maxDims (broadcastSmaller sh1 sh2) (broadcastLarger sh1 sh2) with
        | .error err => .error err
        | .ok out => .ok (.tensor out output_dtype)
      else .error .checkFailed

/-- BroadcastRel: if both inputs downcast to TensorType, CHECK dtype
equality and broadcast with the inputs' dtype; otherwise defer. -/
def BroadcastRel (types : List Ty) (num_args : Int) : Except RelError (List Ty) :=
  match types with
  | [a, b, c] =>
    match ToTensorType a, ToTensorType b with
    | some (sh1, d1), some (sh2, d2) =>
      if d1 = d2 then
        match ConcreteBroadcast sh1 sh2 d1 with
        | .error err => .error err
        | .ok r => .ok [.tensor sh1 d1, .tensor sh2 d2, r]
      else .error .dtypeMismatch
    | _, _ => .ok [a, b, c]
  | _ => .error .checkFailed

/-- BroadcastCompRel: like BroadcastRel but with a Bool output dtype and
no dtype-equality CHECK. -/
def BroadcastCompRel (types : List Ty) (num_args : Int) : Except RelError (List Ty) :=
  match types with
  | [a, b, c] =>
    match ToTensorType a, ToTensorType b with
    | some (sh1, d1), some (sh2, d2) =>
      match ConcreteBroadcast sh1 sh2 .boolT with
      | .error err => .error err
      | .ok r => .ok [.tensor sh1 d1, .tensor sh2 d2, r]
    | _, _ => .ok [a, b, c]
  | _ => .error .checkFailed

/-- The dims-collection loop of ConcreteConcatRel: every suffix dimension
of the first field is evaluated with ToInt and recorded. -/
def collectDims : List ShapeExpr → Except RelError (List Int)
  | [] => .ok []
  | e :: rest =>
    match ToInt e with
    | .error err => .error err
    | .ok v =>
      match collectDims rest with
      | .error err => .error err
      | .ok vs => .ok (v :: vs)

/-- The per-field loop body of ConcreteConcatRel at loop index i: index 0
accumulates the axis-0 dimension, index i + 1 compares the field
dimension against dims[i]; an out-of-bounds dims access (undefined
behaviour in the source) is the outOfBounds error. -/
def concatFieldGo (dims : List Int) : Nat → List ShapeExpr → Except RelError (List Int)
  | _, [] => .ok []
  | 0, e :: rest =>
    match ToInt e with
    | .error err => .error err
    | .ok v =>
      match concatFieldGo dims 1 rest with
      | .error err => .error err
      | .ok axs => .ok (v :: axs)
  | i + 1, e :: rest =>
    match dims.get? i with
    | none => .error .outOfBounds
    | some d =>
      match ToInt e with
      | .error err => .error err
      | .ok v =>
        if d = v then concatFieldGo dims (i + 2) rest
        else .error (.dimensionMismatch d v)

/-- The outer field loop of ConcreteConcatRel: every field is Downcast to
TensorType and its shape walked with concatFieldGo; the axis-0
dimensions are accumulated in order. -/
def concatFields (dims : List Int) : List Ty → Except RelError (List Int)
  | [] => .ok []
  | f :: rest =>
    match f with
    | .tensor sh _ =>
      match concatFieldGo dims 0 sh with
      | .error err => .error err
      | .ok axs =>
        match concatFields dims rest with
        | .error err => .error err
        | .ok more => .ok (axs ++ more)
    | _ => .error .checkFailed

/-- ConcreteConcatRel: the concatenation shape resolver (axis fixed at 0):
requires a tuple of more than one field, records the first field's
suffix dimensions, checks every field with concatFieldGo, and returns
the summed axis dimension followed by the recorded suffix. -/
def ConcreteConcatRel (input_type : Ty) : Except RelError Ty :=
  match input_type with
  | .tuple fields =>
    if 1 < fields.length then
      match fields.get? 0 with
      | some (.tensor fsh fdt) =>
        match collectDims (fsh.drop 1) with
        | .error err => .error err
        | .ok dims =>
          match concatFields dims fields with
          | .error err => .error err
          | .ok axis_dims =>
            .ok (.tensor
              (ShapeExpr.intImm (axis_dims.foldl (fun a b => a + b) 0) ::
                dims.map ShapeExpr.intImm) fdt)
      | _ => .error .checkFailed
    else .error .invalidArgument
  | _ => .error .invalidArgument

/-- ConcatRel: defer when both slots are Incomplete, derive the output
from the input tuple when only the output is Incomplete, otherwise
refuse (reverse inference is not implemented). -/
def ConcatRel (types : List Ty) (num_args : Int) : Except RelError (List Ty) :=
  match types with
  | [t0, t1] =>
    match t0, t1 with
    | .incomplete _, .incomplete _ => .ok [t0, t1]
    | _, .incomplete _ =>
      match ConcreteConcatRel t0 with
      | .error err => .error err
      | .ok r => .ok [t0, r]
    | _, _ => .error .unsupported
  | _ => .error .checkFailed

/-- Input builder for concatenation statements: a tensor field with the
given axis-0 dimension, a shared suffix of dimensions, and a dtype. -/
def mkConcatField (suffix : List Int) (p : Int × DType) : Ty :=
  Ty.tensor (ShapeExpr.intImm p.1 :: List.map ShapeExpr.intImm suffix) p.2

/-- Input builder for concatenation statements: a tensor field with the
given axis-0 dimension and its own suffix of dimensions. -/
def mkField (d : DType) (q : Int × List Int) : Ty :=
  Ty.tensor (List.map ShapeExpr.intImm (q.1 :: q.2)) d

theorem collectDims_map_intImm (t : List Int) :
    collectDims (List.map ShapeExpr.intImm t) = .ok t := by
  induction t with
  | nil => rfl
  | cons a t ih => simp [collectDims, ToInt, ih]

theorem get?_append_cons (pre : List Int) (d : Int) (t : List Int) :
    (pre ++ d :: t).get? pre.length = some d := by
  induction pre with
  | nil => rfl
  | cons p pre ih => simpa using ih

theorem concatFieldGo_nil (dims : List Int) (i : Nat) :
    concatFieldGo dims i [] = .ok [] := by
  cases i <;> rfl

theorem concatFieldGo_consume (s : List Int) :
    ∀ (pre extra rest : List Int),
      concatFieldGo (pre ++ s ++ extra) (pre.length + 1)
          (List.map ShapeExpr.intImm (s ++ rest)) =
        concatFieldGo (pre ++ s ++ extra) (pre.length + s.length + 1)
          (List.map ShapeExpr.intImm rest) := by
  induction s with
  | nil => intro pre extra rest; simp
  | cons d s2 ih =>
    intro pre extra rest
    have hget : (pre ++ (d :: s2) ++ extra).get? pre.length = some d := by
      have h2 : pre ++ (d :: s2) ++ extra = pre ++ d :: (s2 ++ extra) := by simp
      rw [h2, get?_append_cons]
    have hstep : concatFieldGo (pre ++ (d :: s2) ++ extra) (pre.length + 1)
        (List.map ShapeExpr.intImm ((d :: s2) ++ rest)) =
        concatFieldGo (pre ++ (d :: s2) ++ extra) (pre.length + 2)
          (List.map ShapeExpr.intImm (s2 ++ rest)) := by
      simp only [List.cons_append, List.map_cons, concatFieldGo, hget, ToInt]
      simp
    rw [hstep]
    have hlist : pre ++ (d :: s2) ++ extra = (pre ++ [d]) ++ s2 ++ extra := by simp
    rw [hlist]
    rw [show pre.length + 2 = (pre ++ [d]).length + 1 by simp]
    rw [ih (pre ++ [d]) extra rest]
    congr 1
    simp
    omega

theorem concatFieldGo_accept (dims extra : List Int) (a : Int) :
    concatFieldGo (dims ++ extra) 0
      (List.map ShapeExpr.intImm (a :: dims)) = .ok [a] := by
  have h2 : concatFieldGo (dims ++ extra) 1 (List.map ShapeExpr.intImm dims) = .ok [] := by
    have h := concatFieldGo_consume dims ([] : List Int) extra ([] : List Int)
    simpa [concatFieldGo_nil] using h
  simp [concatFieldGo, ToInt, h2]

theorem concatFieldGo_oob (dims : List Int) (a : Int) (rest : List Int)
    (hrest : rest ≠ []) :
    concatFieldGo dims 0 (List.map ShapeExpr.intImm (a :: (dims ++ rest))) =
      .error .outOfBounds := by
  obtain ⟨e, rest2, hr⟩ := List.exists_cons_of_ne_nil hrest
  subst hr
  have h1 : concatFieldGo dims 1 (List.map ShapeExpr.intImm (dims ++ e :: rest2)) =
      concatFieldGo dims (dims.length + 1) (List.map ShapeExpr.intImm (e :: rest2)) := by
    have h := concatFieldGo_consume dims ([] : List Int) ([] : List Int) (e :: rest2)
    simpa using h
  have hnone : dims.get? dims.length = none := by
    simp [List.get?_eq_none]
  simp only [List.map_cons, concatFieldGo, ToInt, h1, hnone]

theorem concatFieldGo_mismatch (t : List Int) :
    ∀ (s pre : List Int), s.length = t.length → s ≠ t →
      ∃ x y, concatFieldGo (pre ++ s) (pre.length + 1)
        (List.map ShapeExpr.intImm t) = .error (.dimensionMismatch x y) := by
  induction t with
  | nil =>
    intro s pre hlen hne
    cases s with
    | nil => exact absurd rfl hne
    | cons e s2 => simp at hlen
  | cons d t2 ih =>
    intro s pre hlen hne
    cases s with
    | nil => simp at hlen
    | cons e s2 =>
      have hget : (pre ++ e :: s2).get? pre.length = some e := get?_append_cons pre e s2
      by_cases hed : e = d
      · subst hed
        have hne2 : s2 ≠ t2 := fun h => hne (by rw [h])
        have hlen2 : s2.length = t2.length := by simpa using hlen
        obtain ⟨x, y, hxy⟩ := ih s2 (pre ++ [e]) hlen2 hne2
        refine ⟨x, y, ?_⟩
        have hstep : concatFieldGo (pre ++ e :: s2) (pre.length + 1)
            (List.map ShapeExpr.intImm (e :: t2)) =
            concatFieldGo (pre ++ e :: s2) (pre.length + 2)
              (List.map ShapeExpr.intImm t2) := by
          simp only [List.map_cons, concatFieldGo, hget, ToInt]
          simp
        rw [hstep]
        have hlist : pre ++ e :: s2 = (pre ++ [e]) ++ s2 := by simp
        rw [hlist, show pre.length + 2 = (pre ++ [e]).length + 1 by simp]
        exact hxy
      · refine ⟨e, d, ?_⟩
        simp only [List.map_cons, concatFieldGo, hget, ToInt]
        simp [hed]

theorem concatFields_map (suffix : List Int) (ps : List (Int × DType)) :
    concatFields suffix (List.map (mkConcatField suffix) ps) =
      .ok (List.map Prod.fst ps) := by
  induction ps with
  | nil => rfl
  | cons p ps ih =>
    have hacc : concatFieldGo suffix 0
        (ShapeExpr.intImm p.1 :: List.map ShapeExpr.intImm suffix) = .ok [p.1] := by
      have h := concatFieldGo_accept suffix [] p.1
      simpa using h
    simp [concatFields, mkConcatField, hacc, ih]

theorem concreteBroadcast_ok_shape (sh1 sh2 : List ShapeExpr) (d : DType) (t : Ty)
    (h : ConcreteBroadcast sh1 sh2 d = .ok t) : ∃ osh, t = .tensor osh d := by
  unfold ConcreteBroadcast at h
  split at h
  · injection h with h
    exact ⟨[], h.symm⟩
  · split at h
    · cases h
    · split at h
      · split at h
        · cases h
        · injection h with h
          exact ⟨_, h.symm⟩
      · cases h

theorem concreteConcatRel_ok_tensor (t r : Ty) (h : ConcreteConcatRel t = .ok r) :
    ∃ osh d, r = Ty.tensor osh d := by
  unfold ConcreteConcatRel at h
  repeat' split at h
  all_goals first
    | (injection h with h; exact ⟨_, _, h.symm⟩)
    | injection h

theorem identityRel_ok_elim (tys : List Ty) (n : Int) (out : List Ty)
    (h : IdentityRel tys n = .ok out) :
    out = tys ∨ ∃ sh d k, tys = [Ty.tensor sh d, Ty.incomplete k] ∧
      out = [Ty.tensor sh d, Ty.tensor sh d] := by
  rcases tys with _ | ⟨t0, _ | ⟨t1, _ | ⟨t2, rest⟩⟩⟩
  · cases h
  · cases h
  · cases t0 <;> cases t1 <;>
      simp only [IdentityRel, ToTensorType] at h <;>
      injection h with h
    case tensor.incomplete sh d k =>
      exact Or.inr ⟨sh, d, k, rfl, h.symm⟩
    all_goals exact Or.inl h.symm
  · cases h

theorem broadcastRel_ok_elim (tys : List Ty) (n : Int) (out : List Ty)
    (h : BroadcastRel tys n = .ok out) :
    out = tys ∨ ∃ sh1 sh2 d c osh,
      tys = [Ty.tensor sh1 d, Ty.tensor sh2 d, c] ∧
      ConcreteBroadcast sh1 sh2 d = .ok (Ty.tensor osh d) ∧
      out = [Ty.tensor sh1 d, Ty.tensor sh2 d, Ty.tensor osh d] := by
  rcases tys with _ | ⟨a, _ | ⟨b, _ | ⟨c, _ | ⟨e, rest⟩⟩⟩⟩
  · cases h
  · cases h
  · cases h
  · cases a <;> cases b
    case tensor.tensor sh1 d1 sh2 d2 =>
      simp only [BroadcastRel, ToTensorType] at h
      by_cases hd : d1 = d2
      · subst hd
        rw [if_pos rfl] at h
        cases hcb : ConcreteBroadcast sh1 sh2 d1 with
        | error e => rw [hcb] at h; cases h
        | ok r =>
          rw [hcb] at h
          obtain ⟨osh, rfl⟩ := concreteBroadcast_ok_shape _ _ _ _ hcb
          injection h with h
          exact Or.inr ⟨sh1, sh2, d1, c, osh, rfl, hcb, h.symm⟩
      · rw [if_neg hd] at h
        cases h
    all_goals
      simp only [BroadcastRel, ToTensorType] at h
    all_goals
      injection h with h
    all_goals exact Or.inl h.symm
  · cases h

theorem broadcastCompRel_ok_elim (tys : List Ty) (n : Int) (out : List Ty)
    (h : BroadcastCompRel tys n = .ok out) :
    out = tys ∨ ∃ sh1 d1 sh2 d2 c osh,
      tys = [Ty.tensor sh1 d1, Ty.tensor sh2 d2, c] ∧
      ConcreteBroadcast sh1 sh2 DType.boolT = .ok (Ty.tensor osh DType.boolT) ∧
      out = [Ty.tensor sh1 d1, Ty.tensor sh2 d2, Ty.tensor osh DType.boolT] := by
  rcases tys with _ | ⟨a, _ | ⟨b, _ | ⟨c, _ | ⟨e, rest⟩⟩⟩⟩
  · cases h
  · cases h
  · cases h
  · cases a <;> cases b
    case tensor.tensor sh1 d1 sh2 d2 =>
      simp only [BroadcastCompRel, ToTensorType] at h
      cases hcb : ConcreteBroadcast sh1 sh2 DType.boolT with
      | error e => rw [hcb] at h; cases h
      | ok r =>
        rw [hcb] at h
        obtain ⟨osh, rfl⟩ := concreteBroadcast_ok_shape _ _ _ _ hcb
        injection h with h
        exact Or.inr ⟨sh1, d1, sh2, d2, c, osh, rfl, hcb, h.symm⟩
    all_goals
      simp only [BroadcastCompRel, ToTensorType] at h
    all_goals
      injection h with h
    all_goals exact Or.inl h.symm
  · cases h

theorem concatRel_ok_elim (tys : List Ty) (n : Int) (out : List Ty)
    (h : ConcatRel tys n = .ok out) :
    (out = tys ∧ ∃ k1 k2, tys = [Ty.incomplete k1, Ty.incomplete k2]) ∨
    ∃ t0 k r, tys = [t0, Ty.incomplete k] ∧ isIncomplete t0 = false ∧
      ConcreteConcatRel t0 = .ok r ∧ out = [t0, r] := by
  rcases tys with _ | ⟨t0, _ | ⟨t1, _ | ⟨t2, rest⟩⟩⟩
  · cases h
  · cases h
  · cases t0 <;> cases t1 <;> simp only [ConcatRel] at h
    case incomplete.incomplete k1 k2 =>
      injection h with h
      exact Or.inl ⟨h.symm, k1, k2, rfl⟩
    all_goals try cases h
    -- only the tuple-input, Incomplete-output case survives: a TensorType
    -- input reduces ConcreteConcatRel to the invalidArgument error, so
    -- that combination can never return ok
    rename_i fields k
    cases hcc : ConcreteConcatRel (Ty.tuple fields) with
    | error e => rw [hcc] at h; cases h
    | ok r =>
      rw [hcc] at h
      injection h with h
      exact Or.inr ⟨Ty.tuple fields, k, r, rfl, rfl, hcc, h.symm⟩
  · cases h

/-- C9: IdentityRel maps a concrete TensorType input with an Incomplete
output slot to the input repeated, and returns the two-element argument
list unchanged in every other case; in particular the concrete examples
of the spec hold. -/
theorem c9_identity_rel :
    (∀ (sh : List ShapeExpr) (d : DType) (k : Nat) (n : Int),
      IdentityRel [Ty.tensor sh d, Ty.incomplete k] n =
        .ok [Ty.tensor sh d, Ty.tensor sh d]) ∧
    (∀ (t0 t1 : Ty) (n : Int), ToTensorType t0 = none →
      IdentityRel [t0, t1] n = .ok [t0, t1]) ∧
    (∀ (t0 t1 : Ty) (n : Int), isIncomplete t1 = false →
      IdentityRel [t0, t1] n = .ok [t0, t1]) ∧
    IdentityRel [Ty.tensor [ShapeExpr.intImm 4] (DType.intT 32), Ty.incomplete 0] 1 =
      .ok [Ty.tensor [ShapeExpr.intImm 4] (DType.intT 32),
           Ty.tensor [ShapeExpr.intImm 4] (DType.intT 32)] ∧
    IdentityRel [Ty.incomplete 0, Ty.incomplete 1] 1 =
      .ok [Ty.incomplete 0, Ty.incomplete 1] := by
  refine ⟨?_, ?_, ?_, rfl, rfl⟩
  · intro sh d k n
    rfl
  · intro t0 t1 n h
    cases t0 <;> cases t1 <;> simp_all [IdentityRel, ToTensorType]
  · intro t0 t1 n h
    cases t0 <;> cases t1 <;> simp_all [IdentityRel, ToTensorType, isIncomplete]

/-- C1: the claim states that ConcreteBroadcast on broadcast-compatible
concrete shapes returns the left-padded positionwise maxima, and that a
shape A broadcast against a rank-0 shape in either argument order yields
A unchanged.  The code violates this: whenever the first shape is
strictly longer than the second, the vector named smaller is reassigned
to sh2, discarding the padding, and CHECK_EQ(larger.size(),
smaller.size()) aborts.  This theorem evaluates the code at such inputs:
shape 3 against rank-0 aborts on the internal size check, while the
reverse order and the rank-0 pair behave as claimed. -/
theorem c1_broadcast_rank_pad_bug :
    ConcreteBroadcast [ShapeExpr.intImm 3] [] (DType.intT 32) =
      .error .checkFailed ∧
    ConcreteBroadcast [] [ShapeExpr.intImm 3] (DType.intT 32) =
      .ok (.tensor [ShapeExpr.intImm 3] (DType.intT 32)) ∧
    ConcreteBroadcast [] [] (DType.intT 32) =
      .ok (.tensor [] (DType.intT 32)) := by
  exact ⟨rfl, rfl, rfl⟩

/-- C2: the claim states that broadcasting shapes 8,1,6,1 and 7,1,5
yields 8,7,6,5 and that 3,4 against 4 yields 3,4.  Both inputs have a
longer first shape, so the code aborts on CHECK_EQ(larger.size(),
smaller.size()) instead; the DimensionMismatch(3, 2) part of the claim
does hold.  This theorem evaluates the code at all three inputs. -/
theorem c2_broadcast_examples_bug :
    ConcreteBroadcast
        [ShapeExpr.intImm 8, ShapeExpr.intImm 1, ShapeExpr.intImm 6, ShapeExpr.intImm 1]
        [ShapeExpr.intImm 7, ShapeExpr.intImm 1, ShapeExpr.intImm 5]
        (DType.intT 32) = .error .checkFailed ∧
    ConcreteBroadcast [ShapeExpr.intImm 3, ShapeExpr.intImm 4] [ShapeExpr.intImm 4]
        (DType.intT 32) = .error .checkFailed ∧
    ConcreteBroadcast [ShapeExpr.intImm 3, ShapeExpr.intImm 4]
        [ShapeExpr.intImm 2, ShapeExpr.intImm 4]
        (DType.intT 32) = .error (.dimensionMismatch 3 2) := by
  exact ⟨rfl, rfl, rfl⟩

/-- C3 counterexample: ConcatRel succeeds on a concrete tuple with an
Incomplete output slot, but re-invoking it on its own output fails with
the unsupported reverse-inference error, so re-invocation with a
previous output is not always a no-change success. -/
theorem c3_concat_not_idempotent :
    ConcatRel
        [Ty.tuple [Ty.tensor [ShapeExpr.intImm 2, ShapeExpr.intImm 5] (DType.intT 32),
                   Ty.tensor [ShapeExpr.intImm 3, ShapeExpr.intImm 5] (DType.intT 32)],
         Ty.incomplete 0] 1 =
      .ok [Ty.tuple [Ty.tensor [ShapeExpr.intImm 2, ShapeExpr.intImm 5] (DType.intT 32),
                     Ty.tensor [ShapeExpr.intImm 3, ShapeExpr.intImm 5] (DType.intT 32)],
           Ty.tensor [ShapeExpr.intImm 5, ShapeExpr.intImm 5] (DType.intT 32)] ∧
    ConcatRel
        [Ty.tuple [Ty.tensor [ShapeExpr.intImm 2, ShapeExpr.intImm 5] (DType.intT 32),
                   Ty.tensor [ShapeExpr.intImm 3, ShapeExpr.intImm 5] (DType.intT 32)],
         Ty.tensor [ShapeExpr.intImm 5, ShapeExpr.intImm 5] (DType.intT 32)] 1 =
      .error .unsupported := by
  exact ⟨rfl, rfl⟩

/-- C4 counterexample: BroadcastRel recomputes the output slot from the
two inputs alone, so a third slot that already holds a concrete tensor
of shape 99 is replaced by the freshly derived tensor of shape 2 — a
relation does return a concrete type different from the concrete type
the slot already held. -/
theorem c4_concrete_slot_overwritten :
    isIncomplete (Ty.tensor [ShapeExpr.intImm 99] (DType.intT 32)) = false ∧
    BroadcastRel
        [Ty.tensor [ShapeExpr.intImm 2] (DType.intT 32),
         Ty.tensor [ShapeExpr.intImm 2] (DType.intT 32),
         Ty.tensor [ShapeExpr.intImm 99] (DType.intT 32)] 2 =
      .ok [Ty.tensor [ShapeExpr.intImm 2] (DType.intT 32),
           Ty.tensor [ShapeExpr.intImm 2] (DType.intT 32),
           Ty.tensor [ShapeExpr.intImm 2] (DType.intT 32)] ∧
    Ty.tensor [ShapeExpr.intImm 2] (DType.intT 32) ≠
      Ty.tensor [ShapeExpr.intImm 99] (DType.intT 32) := by
  refine ⟨rfl, rfl, ?_⟩
  decide

/-- C5 counterexample: with a concrete non-tuple input (a TensorType)
and an Incomplete output ConcatRel reaches the resolver, which fails
with the InvalidArgument non-tuple error, not with Unsupported as the
claim states for every combination other than the tuple-input case. -/
theorem c5_nontuple_input_invalid_argument :
    ConcatRel [Ty.tensor [ShapeExpr.intImm 4] (DType.intT 32), Ty.incomplete 0] 1 =
      .error .invalidArgument ∧
    RelError.invalidArgument ≠ RelError.unsupported := by
  refine ⟨rfl, ?_⟩
  decide

/-- C7: BroadcastRel on two concrete TensorTypes requires their element
kinds to be exactly equal — a dtype mismatch is always a hard failure —
and on success returns the two inputs followed by a broadcast result
carrying the inputs own element kind; when either input is not a
concrete TensorType the argument list is returned unchanged. -/
theorem c7_broadcast_rel :
    (∀ (sh1 sh2 : List ShapeExpr) (d1 d2 : DType) (c : Ty) (n : Int) (out : List Ty),
      BroadcastRel [Ty.tensor sh1 d1, Ty.tensor sh2 d2, c] n = .ok out →
      d1 = d2 ∧ ∃ osh, ConcreteBroadcast sh1 sh2 d1 = .ok (Ty.tensor osh d1) ∧
        out = [Ty.tensor sh1 d1, Ty.tensor sh2 d2, Ty.tensor osh d1]) ∧
    (∀ (sh1 sh2 : List ShapeExpr) (d1 d2 : DType) (c : Ty) (n : Int), d1 ≠ d2 →
      BroadcastRel [Ty.tensor sh1 d1, Ty.tensor sh2 d2, c] n =
        .error .dtypeMismatch) ∧
    (∀ (a b c : Ty) (n : Int), ToTensorType a = none ∨ ToTensorType b = none →
      BroadcastRel [a, b, c] n = .ok [a, b, c]) := by
  refine ⟨?_, ?_, ?_⟩
  · intro sh1 sh2 d1 d2 c n out h
    simp only [BroadcastRel, ToTensorType] at h
    by_cases hd : d1 = d2
    · subst hd
      rw [if_pos rfl] at h
      cases hcb : ConcreteBroadcast sh1 sh2 d1 with
      | error e => rw [hcb] at h; cases h
      | ok r =>
        rw [hcb] at h
        obtain ⟨osh, rfl⟩ := concreteBroadcast_ok_shape _ _ _ _ hcb
        injection h with h
        exact ⟨rfl, osh, rfl, h.symm⟩
    · rw [if_neg hd] at h
      cases h
  · intro sh1 sh2 d1 d2 c n hd
    simp only [BroadcastRel, ToTensorType]
    rw [if_neg hd]
  · intro a b c n h
    rcases h with h | h
    · cases a <;> cases b <;> simp_all [BroadcastRel, ToTensorType]
    · cases a <;> cases b <;> simp_all [BroadcastRel, ToTensorType]

/-- C8: BroadcastCompRel behaves like BroadcastRel except that the
derived output element kind is the boolean kind regardless of the input
kinds, and it performs no dtype-equality check: it succeeds on two
concrete tensor inputs whose element kinds differ, as the closing
concrete instance shows. -/
theorem c8_broadcast_comp_rel :
    (∀ (sh1 sh2 : List ShapeExpr) (d1 d2 : DType) (c : Ty) (n : Int) (r : Ty),
      ConcreteBroadcast sh1 sh2 DType.boolT = .ok r →
      BroadcastCompRel [Ty.tensor sh1 d1, Ty.tensor sh2 d2, c] n =
        .ok [Ty.tensor sh1 d1, Ty.tensor sh2 d2, r] ∧
      ∃ osh, r = Ty.tensor osh DType.boolT) ∧
    (∀ (sh1 sh2 : List ShapeExpr) (d1 d2 : DType) (c : Ty) (n : Int) (e : RelError),
      ConcreteBroadcast sh1 sh2 DType.boolT = .error e →
      BroadcastCompRel [Ty.tensor sh1 d1, Ty.tensor sh2 d2, c] n = .error e) ∧
    (∀ (a b c : Ty) (n : Int), ToTensorType a = none ∨ ToTensorType b = none →
      BroadcastCompRel [a, b, c] n = .ok [a, b, c]) ∧
    (BroadcastCompRel
        [Ty.tensor [ShapeExpr.intImm 2] (DType.intT 32),
         Ty.tensor [ShapeExpr.intImm 2] (DType.floatT 32), Ty.incomplete 0] 2 =
      .ok [Ty.tensor [ShapeExpr.intImm 2] (DType.intT 32),
           Ty.tensor [ShapeExpr.intImm 2] (DType.floatT 32),
           Ty.tensor [ShapeExpr.intImm 2] DType.boolT] ∧
     DType.intT 32 ≠ DType.floatT 32) := by
  refine ⟨?_, ?_, ?_, rfl, by decide⟩
  · intro sh1 sh2 d1 d2 c n r h
    constructor
    · simp only [BroadcastCompRel, ToTensorType, h]
    · obtain ⟨osh, rfl⟩ := concreteBroadcast_ok_shape _ _ _ _ h
      exact ⟨osh, rfl⟩
  · intro sh1 sh2 d1 d2 c n e h
    simp only [BroadcastCompRel, ToTensorType, h]
  · intro a b c n h
    rcases h with h | h
    · cases a <;> cases b <;> simp_all [BroadcastCompRel, ToTensorType]
    · cases a <;> cases b <;> simp_all [BroadcastCompRel, ToTensorType]

/-- C7 witness: the theorem applied at concrete inputs, discharging each
hypothesis: a successful same-dtype broadcast, a failing mixed-dtype
broadcast, and a deferred call with an Incomplete input. -/
theorem c7_broadcast_rel_witness :
    ((DType.intT 32 = DType.intT 32 ∧ ∃ osh,
        ConcreteBroadcast [ShapeExpr.intImm 2] [ShapeExpr.intImm 2] (DType.intT 32) =
          .ok (Ty.tensor osh (DType.intT 32)) ∧
        [Ty.tensor [ShapeExpr.intImm 2] (DType.intT 32),
         Ty.tensor [ShapeExpr.intImm 2] (DType.intT 32),
         Ty.tensor [ShapeExpr.intImm 2] (DType.intT 32)] =
          [Ty.tensor [ShapeExpr.intImm 2] (DType.intT 32),
           Ty.tensor [ShapeExpr.intImm 2] (DType.intT 32),
           Ty.tensor osh (DType.intT 32)]) ∧
     BroadcastRel [Ty.tensor [ShapeExpr.intImm 2] (DType.intT 32),
         Ty.tensor [ShapeExpr.intImm 2] (DType.floatT 32), Ty.incomplete 0] 2 =
       .error .dtypeMismatch ∧
     BroadcastRel [Ty.incomplete 0, Ty.tensor [ShapeExpr.intImm 2] (DType.intT 32),
         Ty.incomplete 1] 2 =
       .ok [Ty.incomplete 0, Ty.tensor [ShapeExpr.intImm 2] (DType.intT 32),
            Ty.incomplete 1]) := by
  refine ⟨c7_broadcast_rel.1 [ShapeExpr.intImm 2] [ShapeExpr.intImm 2]
      (DType.intT 32) (DType.intT 32) (Ty.incomplete 0) 2 _ rfl, ?_, ?_⟩
  · exact c7_broadcast_rel.2.1 [ShapeExpr.intImm 2] [ShapeExpr.intImm 2]
      (DType.intT 32) (DType.floatT 32) (Ty.incomplete 0) 2 (by decide)
  · exact c7_broadcast_rel.2.2 (Ty.incomplete 0)
      (Ty.tensor [ShapeExpr.intImm 2] (DType.intT 32)) (Ty.incomplete 1) 2
      (Or.inl rfl)

/-- C8 witness: the theorem applied at concrete inputs with differing
element kinds, discharging each hypothesis. -/
theorem c8_broadcast_comp_rel_witness :
    (BroadcastCompRel
        [Ty.tensor [ShapeExpr.intImm 3] (DType.intT 8),
         Ty.tensor [ShapeExpr.intImm 3] (DType.floatT 16), Ty.incomplete 0] 2 =
      .ok [Ty.tensor [ShapeExpr.intImm 3] (DType.intT 8),
           Ty.tensor [ShapeExpr.intImm 3] (DType.floatT 16),
           Ty.tensor [ShapeExpr.intImm 3] DType.boolT] ∧
     ∃ osh, Ty.tensor [ShapeExpr.intImm 3] DType.boolT = Ty.tensor osh DType.boolT) ∧
    BroadcastCompRel
        [Ty.tensor [ShapeExpr.intImm 3, ShapeExpr.intImm 4] (DType.intT 8),
         Ty.tensor [ShapeExpr.intImm 4] (DType.floatT 16), Ty.incomplete 0] 2 =
      .error .checkFailed ∧
    BroadcastCompRel [Ty.tensor [ShapeExpr.intImm 3] (DType.intT 8), Ty.incomplete 0,
        Ty.incomplete 1] 2 =
      .ok [Ty.tensor [ShapeExpr.intImm 3] (DType.intT 8), Ty.incomplete 0,
           Ty.incomplete 1] := by
  refine ⟨c8_broadcast_comp_rel.1 [ShapeExpr.intImm 3] [ShapeExpr.intImm 3]
      (DType.intT 8) (DType.floatT 16) (Ty.incomplete 0) 2 _ rfl, ?_, ?_⟩
  · exact c8_broadcast_comp_rel.2.1
      [ShapeExpr.intImm 3, ShapeExpr.intImm 4] [ShapeExpr.intImm 4]
      (DType.intT 8) (DType.floatT 16) (Ty.incomplete 0) 2 .checkFailed rfl
  · exact c8_broadcast_comp_rel.2.2.1
      (Ty.tensor [ShapeExpr.intImm 3] (DType.intT 8)) (Ty.incomplete 0)
      (Ty.incomplete 1) 2 (Or.inr rfl)

/-- C9 witness: the theorem applied at concrete inputs, discharging the
hypotheses of the defer clauses. -/
theorem c9_identity_rel_witness :
    IdentityRel [Ty.incomplete 5, Ty.tensor [ShapeExpr.intImm 4] (DType.intT 32)] 1 =
      .ok [Ty.incomplete 5, Ty.tensor [ShapeExpr.intImm 4] (DType.intT 32)] ∧
    IdentityRel [Ty.tensor [ShapeExpr.intImm 4] (DType.intT 32),
        Ty.tensor [ShapeExpr.intImm 9] (DType.intT 32)] 1 =
      .ok [Ty.tensor [ShapeExpr.intImm 4] (DType.intT 32),
           Ty.tensor [ShapeExpr.intImm 9] (DType.intT 32)] := by
  constructor
  · exact c9_identity_rel.2.1 (Ty.incomplete 5)
      (Ty.tensor [ShapeExpr.intImm 4] (DType.intT 32)) 1 rfl
  · exact c9_identity_rel.2.2.1 (Ty.tensor [ShapeExpr.intImm 4] (DType.intT 32))
      (Ty.tensor [ShapeExpr.intImm 9] (DType.intT 32)) 1 rfl

/-- C3 amended: Identity, Broadcast and BroadcastToBool are idempotent on
success — re-invoking the relation on its own successful output succeeds
with the same output — and Concat is idempotent exactly when it deferred
(returned its arguments unchanged); after a successful forward
derivation the output slot is concrete and re-invoking Concat on its own
output fails with the unsupported reverse-inference error. -/
theorem c3_idempotence_amended :
    (∀ (tys : List Ty) (n : Int) (out : List Ty),
      IdentityRel tys n = .ok out → IdentityRel out n = .ok out) ∧
    (∀ (tys : List Ty) (n : Int) (out : List Ty),
      BroadcastRel tys n = .ok out → BroadcastRel out n = .ok out) ∧
    (∀ (tys : List Ty) (n : Int) (out : List Ty),
      BroadcastCompRel tys n = .ok out → BroadcastCompRel out n = .ok out) ∧
    (∀ (tys : List Ty) (n : Int) (out : List Ty),
      ConcatRel tys n = .ok out →
      (out = tys ∧ ConcatRel out n = .ok out) ∨
        ConcatRel out n = .error .unsupported) := by
  refine ⟨?_, ?_, ?_, ?_⟩
  · intro tys n out h
    rcases identityRel_ok_elim tys n out h with rfl | ⟨sh, d, k, htys, rfl⟩
    · exact h
    · rfl
  · intro tys n out h
    rcases broadcastRel_ok_elim tys n out h with rfl | ⟨sh1, sh2, d, c, osh, htys, hcb, rfl⟩
    · exact h
    · simp only [BroadcastRel, ToTensorType, if_pos rfl, hcb]
      simp
  · intro tys n out h
    rcases broadcastCompRel_ok_elim tys n out h
      with rfl | ⟨sh1, d1, sh2, d2, c, osh, htys, hcb, rfl⟩
    · exact h
    · simp only [BroadcastCompRel, ToTensorType, hcb]
  · intro tys n out h
    rcases concatRel_ok_elim tys n out h with ⟨rfl, k1, k2, htys⟩ | ⟨t0, k, r, htys, ht0, hcc, rfl⟩
    · exact Or.inl ⟨rfl, h⟩
    · obtain ⟨osh, d, rfl⟩ := concreteConcatRel_ok_tensor t0 r hcc
      right
      cases t0 <;> rfl

/-- C3 witness: the amended theorem applied to concrete successful
invocations of each relation. -/
theorem c3_idempotence_amended_witness :
    IdentityRel [Ty.tensor [ShapeExpr.intImm 4] (DType.intT 32),
        Ty.tensor [ShapeExpr.intImm 4] (DType.intT 32)] 1 =
      .ok [Ty.tensor [ShapeExpr.intImm 4] (DType.intT 32),
           Ty.tensor [ShapeExpr.intImm 4] (DType.intT 32)] ∧
    BroadcastRel [Ty.tensor [ShapeExpr.intImm 2] (DType.intT 32),
        Ty.tensor [ShapeExpr.intImm 2] (DType.intT 32),
        Ty.tensor [ShapeExpr.intImm 2] (DType.intT 32)] 2 =
      .ok [Ty.tensor [ShapeExpr.intImm 2] (DType.intT 32),
           Ty.tensor [ShapeExpr.intImm 2] (DType.intT 32),
           Ty.tensor [ShapeExpr.intImm 2] (DType.intT 32)] ∧
    BroadcastCompRel [Ty.tensor [ShapeExpr.intImm 2] (DType.intT 32),
        Ty.tensor [ShapeExpr.intImm 2] (DType.floatT 32),
        Ty.tensor [ShapeExpr.intImm 2] DType.boolT] 2 =
      .ok [Ty.tensor [ShapeExpr.intImm 2] (DType.intT 32),
           Ty.tensor [ShapeExpr.intImm 2] (DType.floatT 32),
           Ty.tensor [ShapeExpr.intImm 2] DType.boolT] ∧
    ((([Ty.tuple [Ty.tensor [ShapeExpr.intImm 2, ShapeExpr.intImm 5] (DType.intT 32),
                  Ty.tensor [ShapeExpr.intImm 3, ShapeExpr.intImm 5] (DType.intT 32)],
        Ty.tensor [ShapeExpr.intImm 5, ShapeExpr.intImm 5] (DType.intT 32)] :
          List Ty) =
       [Ty.tuple [Ty.tensor [ShapeExpr.intImm 2, ShapeExpr.intImm 5] (DType.intT 32),
                  Ty.tensor [ShapeExpr.intImm 3, ShapeExpr.intImm 5] (DType.intT 32)],
        Ty.incomplete 0] ∧
      ConcatRel [Ty.tuple [Ty.tensor [ShapeExpr.intImm 2, ShapeExpr.intImm 5] (DType.intT 32),
                  Ty.tensor [ShapeExpr.intImm 3, ShapeExpr.intImm 5] (DType.intT 32)],
        Ty.tensor [ShapeExpr.intImm 5, ShapeExpr.intImm 5] (DType.intT 32)] 1 =
        .ok [Ty.tuple [Ty.tensor [ShapeExpr.intImm 2, ShapeExpr.intImm 5] (DType.intT 32),
                  Ty.tensor [ShapeExpr.intImm 3, ShapeExpr.intImm 5] (DType.intT 32)],
             Ty.tensor [ShapeExpr.intImm 5, ShapeExpr.intImm 5] (DType.intT 32)]) ∨
     ConcatRel [Ty.tuple [Ty.tensor [ShapeExpr.intImm 2, ShapeExpr.intImm 5] (DType.intT 32),
                  Ty.tensor [ShapeExpr.intImm 3, ShapeExpr.intImm 5] (DType.intT 32)],
        Ty.tensor [ShapeExpr.intImm 5, ShapeExpr.intImm 5] (DType.intT 32)] 1 =
        .error .unsupported) := by
  refine ⟨?_, ?_, ?_, ?_⟩
  · exact c3_idempotence_amended.1
      [Ty.tensor [ShapeExpr.intImm 4] (DType.intT 32), Ty.incomplete 0] 1 _ rfl
  · exact c3_idempotence_amended.2.1
      [Ty.tensor [ShapeExpr.intImm 2] (DType.intT 32),
       Ty.tensor [ShapeExpr.intImm 2] (DType.intT 32), Ty.incomplete 0] 2 _ rfl
  · exact c3_idempotence_amended.2.2.1
      [Ty.tensor [ShapeExpr.intImm 2] (DType.intT 32),
       Ty.tensor [ShapeExpr.intImm 2] (DType.floatT 32), Ty.incomplete 0] 2 _ rfl
  · exact c3_idempotence_amended.2.2.2
      [Ty.tuple [Ty.tensor [ShapeExpr.intImm 2, ShapeExpr.intImm 5] (DType.intT 32),
                 Ty.tensor [ShapeExpr.intImm 3, ShapeExpr.intImm 5] (DType.intT 32)],
       Ty.incomplete 0] 1 _ rfl

/-- C4 amended: every relation that succeeds returns a list of the same
length as its input, and a slot that held a concrete (non-Incomplete)
type is never returned as Incomplete; however the claim that a relation
never returns a concrete type different from the concrete type the slot
already held fails for Broadcast and BroadcastToBool, which recompute
the output slot from the two inputs alone and overwrite whatever
concrete type it held. -/
theorem c4_length_monotone_amended :
    (∀ (tys : List Ty) (n : Int) (out : List Ty),
      IdentityRel tys n = .ok out ∨ BroadcastRel tys n = .ok out ∨
        BroadcastCompRel tys n = .ok out ∨ ConcatRel tys n = .ok out →
      out.length = tys.length ∧
      ∀ i, isIncomplete (tys.getD i (Ty.incomplete 0)) = false →
        isIncomplete (out.getD i (Ty.incomplete 0)) = false) := by
  intro tys n out h
  rcases h with h | h | h | h
  · rcases identityRel_ok_elim tys n out h with rfl | ⟨sh, d, k, rfl, rfl⟩
    · exact ⟨rfl, fun i hi => hi⟩
    · refine ⟨rfl, ?_⟩
      intro i hi
      rcases i with _ | ⟨_ | i⟩ <;> simp_all [isIncomplete, List.getD]
  · rcases broadcastRel_ok_elim tys n out h with rfl | ⟨sh1, sh2, d, c, osh, rfl, hcb, rfl⟩
    · exact ⟨rfl, fun i hi => hi⟩
    · refine ⟨rfl, ?_⟩
      intro i hi
      rcases i with _ | ⟨_ | ⟨_ | i⟩⟩ <;> simp_all [isIncomplete, List.getD]
  · rcases broadcastCompRel_ok_elim tys n out h
      with rfl | ⟨sh1, d1, sh2, d2, c, osh, rfl, hcb, rfl⟩
    · exact ⟨rfl, fun i hi => hi⟩
    · refine ⟨rfl, ?_⟩
      intro i hi
      rcases i with _ | ⟨_ | ⟨_ | i⟩⟩ <;> simp_all [isIncomplete, List.getD]
  · rcases concatRel_ok_elim tys n out h with ⟨rfl, k1, k2, htys⟩ | ⟨t0, k, r, rfl, ht0, hcc, rfl⟩
    · exact ⟨rfl, fun i hi => hi⟩
    · obtain ⟨osh, d, rfl⟩ := concreteConcatRel_ok_tensor t0 r hcc
      refine ⟨rfl, ?_⟩
      intro i hi
      rcases i with _ | ⟨_ | i⟩ <;> simp_all [isIncomplete, List.getD]

/-- C4 witness: the amended theorem applied to a concrete successful
invocation. -/
theorem c4_length_monotone_amended_witness :
    ([Ty.tensor [ShapeExpr.intImm 4] (DType.intT 32),
      Ty.tensor [ShapeExpr.intImm 4] (DType.intT 32)] : List Ty).length =
      ([Ty.tensor [ShapeExpr.intImm 4] (DType.intT 32), Ty.incomplete 0] : List Ty).length ∧
    ∀ i, isIncomplete (([Ty.tensor [ShapeExpr.intImm 4] (DType.intT 32),
        Ty.incomplete 0] : List Ty).getD i (Ty.incomplete 0)) = false →
      isIncomplete (([Ty.tensor [ShapeExpr.intImm 4] (DType.intT 32),
        Ty.tensor [ShapeExpr.intImm 4] (DType.intT 32)] : List Ty).getD i
          (Ty.incomplete 0)) = false := by
  exact c4_length_monotone_amended
    [Ty.tensor [ShapeExpr.intImm 4] (DType.intT 32), Ty.incomplete 0] 1
    [Ty.tensor [ShapeExpr.intImm 4] (DType.intT 32),
     Ty.tensor [ShapeExpr.intImm 4] (DType.intT 32)] (Or.inl rfl)

/-- C5 amended: ConcatRel checks its cases in order — both slots
Incomplete defers unchanged; a non-Incomplete input with an Incomplete
output delegates to the resolver, propagating its result or failure; any
combination with a non-Incomplete output fails with Unsupported.  The
claim that every combination other than the known-tuple case fails with
Unsupported is amended: a concrete non-tuple input (for example a
TensorType) with an Incomplete output fails with the resolver's
InvalidArgument error instead. -/
theorem c5_concat_cases_amended :
    (∀ (t0 t1 : Ty) (n : Int), isIncomplete t0 = true → isIncomplete t1 = true →
      ConcatRel [t0, t1] n = .ok [t0, t1]) ∧
    (∀ (t0 t1 : Ty) (n : Int) (r : Ty), isIncomplete t0 = false →
      isIncomplete t1 = true → ConcreteConcatRel t0 = .ok r →
      ConcatRel [t0, t1] n = .ok [t0, r]) ∧
    (∀ (t0 t1 : Ty) (n : Int) (e : RelError), isIncomplete t0 = false →
      isIncomplete t1 = true → ConcreteConcatRel t0 = .error e →
      ConcatRel [t0, t1] n = .error e) ∧
    (∀ (t0 t1 : Ty) (n : Int), isIncomplete t1 = false →
      ConcatRel [t0, t1] n = .error .unsupported) ∧
    (∀ (sh : List ShapeExpr) (d : DType) (k : Nat) (n : Int),
      ConcatRel [Ty.tensor sh d, Ty.incomplete k] n = .error .invalidArgument) := by
  refine ⟨?_, ?_, ?_, ?_, ?_⟩
  · intro t0 t1 n h0 h1
    cases t0 <;> cases t1 <;> simp_all [isIncomplete, ConcatRel]
  · intro t0 t1 n r h0 h1 hcc
    cases t0 <;> cases t1 <;> simp_all [isIncomplete, ConcatRel]
  · intro t0 t1 n e h0 h1 hcc
    cases t0 <;> cases t1 <;> simp_all [isIncomplete, ConcatRel]
  · intro t0 t1 n h1
    cases t0 <;> cases t1 <;> simp_all [isIncomplete, ConcatRel]
  · intro sh d k n
    rfl

/-- C5 witness: the amended theorem applied at concrete inputs,
discharging each hypothesis. -/
theorem c5_concat_cases_amended_witness :
    ConcatRel [Ty.incomplete 0, Ty.incomplete 1] 1 =
      .ok [Ty.incomplete 0, Ty.incomplete 1] ∧
    ConcatRel [Ty.tuple [Ty.tensor [ShapeExpr.intImm 2, ShapeExpr.intImm 5] (DType.intT 32),
                         Ty.tensor [ShapeExpr.intImm 3, ShapeExpr.intImm 5] (DType.intT 32)],
        Ty.incomplete 0] 1 =
      .ok [Ty.tuple [Ty.tensor [ShapeExpr.intImm 2, ShapeExpr.intImm 5] (DType.intT 32),
                     Ty.tensor [ShapeExpr.intImm 3, ShapeExpr.intImm 5] (DType.intT 32)],
           Ty.tensor [ShapeExpr.intImm 5, ShapeExpr.intImm 5] (DType.intT 32)] ∧
    ConcatRel [Ty.tuple [Ty.tensor [ShapeExpr.intImm 2, ShapeExpr.intImm 5] (DType.intT 32),
                         Ty.tensor [ShapeExpr.intImm 3, ShapeExpr.intImm 6] (DType.intT 32)],
        Ty.incomplete 0] 1 =
      .error (.dimensionMismatch 5 6) ∧
    ConcatRel [Ty.incomplete 0, Ty.tensor [ShapeExpr.intImm 5] (DType.intT 32)] 1 =
      .error .unsupported := by
  refine ⟨?_, ?_, ?_, ?_⟩
  · exact c5_concat_cases_amended.1 (Ty.incomplete 0) (Ty.incomplete 1) 1 rfl rfl
  · exact c5_concat_cases_amended.2.1
      (Ty.tuple [Ty.tensor [ShapeExpr.intImm 2, ShapeExpr.intImm 5] (DType.intT 32),
                 Ty.tensor [ShapeExpr.intImm 3, ShapeExpr.intImm 5] (DType.intT 32)])
      (Ty.incomplete 0) 1
      (Ty.tensor [ShapeExpr.intImm 5, ShapeExpr.intImm 5] (DType.intT 32)) rfl rfl rfl
  · exact c5_concat_cases_amended.2.2.1
      (Ty.tuple [Ty.tensor [ShapeExpr.intImm 2, ShapeExpr.intImm 5] (DType.intT 32),
                 Ty.tensor [ShapeExpr.intImm 3, ShapeExpr.intImm 6] (DType.intT 32)])
      (Ty.incomplete 0) 1 (.dimensionMismatch 5 6) rfl rfl rfl
  · exact c5_concat_cases_amended.2.2.2.1 (Ty.incomplete 0)
      (Ty.tensor [ShapeExpr.intImm 5] (DType.intT 32)) 1 rfl

theorem concatFields_mismatch (suffix : List Int) (d : DType) :
    ∀ (qs : List (Int × List Int)),
      (∀ q ∈ qs, (q.2).length = suffix.length) →
      (∃ q ∈ qs, q.2 ≠ suffix) →
      ∃ x y, concatFields suffix (List.map (mkField d) qs) =
        .error (.dimensionMismatch x y) := by
  intro qs
  induction qs with
  | nil =>
    intro _ hex
    simp at hex
  | cons q qs2 ih =>
    intro hlen hex
    by_cases hq : q.2 = suffix
    · have hex2 : ∃ p ∈ qs2, p.2 ≠ suffix := by
        rcases hex with ⟨p, hp, hne⟩
        rcases List.mem_cons.mp hp with rfl | hp2
        · exact absurd hq hne
        · exact ⟨p, hp2, hne⟩
      obtain ⟨x, y, hxy⟩ := ih (fun p hp => hlen p (List.mem_cons_of_mem _ hp)) hex2
      have hacc : concatFieldGo suffix 0
          (ShapeExpr.intImm q.1 :: List.map ShapeExpr.intImm (q.2)) = .ok [q.1] := by
        rw [hq]
        have h := concatFieldGo_accept suffix [] q.1
        simpa using h
      refine ⟨x, y, ?_⟩
      simp only [List.map_cons, mkField, concatFields, hacc, hxy]
    · have hlenq : suffix.length = (q.2).length :=
        (hlen q (List.mem_cons_self q qs2)).symm
      obtain ⟨x, y, hxy⟩ :=
        concatFieldGo_mismatch (q.2) suffix [] hlenq (Ne.symm hq)
      have hxy2 : concatFieldGo suffix 1 (List.map ShapeExpr.intImm (q.2)) =
          .error (.dimensionMismatch x y) := by
        simpa using hxy
      have hfield : concatFieldGo suffix 0
          (ShapeExpr.intImm q.1 :: List.map ShapeExpr.intImm (q.2)) =
          .error (.dimensionMismatch x y) := by
        simp only [concatFieldGo, ToInt, hxy2]
      refine ⟨x, y, ?_⟩
      simp only [List.map_cons, mkField, concatFields, hfield]

/-- C6: the concatenation shape resolver on a tuple of at least two
concrete tensor fields whose suffix dimensions all equal the first
field's suffix returns the sum of the axis-0 dimensions followed by that
suffix, with the first field's element kind; any suffix mismatch among
rank-equal fields fails with DimensionMismatch; a tuple with fewer than
two fields fails with InvalidArgument; and the concrete spec examples
hold. -/
theorem c6_concat_resolver :
    (∀ (p0 p1 : Int × DType) (ps : List (Int × DType)) (suffix : List Int),
      ConcreteConcatRel (Ty.tuple (List.map (mkConcatField suffix) (p0 :: p1 :: ps))) =
        .ok (Ty.tensor (ShapeExpr.intImm
            (List.foldl (fun a b => a + b) 0 (List.map Prod.fst (p0 :: p1 :: ps))) ::
          List.map ShapeExpr.intImm suffix) p0.2)) ∧
    (∀ (a0 : Int) (suffix : List Int) (d : DType) (qs : List (Int × List Int)),
      (∀ q ∈ qs, (q.2).length = suffix.length) → (∃ q ∈ qs, q.2 ≠ suffix) →
      ∃ x y, ConcreteConcatRel (Ty.tuple (List.map (mkField d) ((a0, suffix) :: qs))) =
        .error (.dimensionMismatch x y)) ∧
    ConcreteConcatRel (Ty.tuple
        [Ty.tensor [ShapeExpr.intImm 2, ShapeExpr.intImm 5] (DType.intT 32),
         Ty.tensor [ShapeExpr.intImm 3, ShapeExpr.intImm 5] (DType.intT 32)]) =
      .ok (Ty.tensor [ShapeExpr.intImm 5, ShapeExpr.intImm 5] (DType.intT 32)) ∧
    ConcreteConcatRel (Ty.tuple
        [Ty.tensor [ShapeExpr.intImm 2, ShapeExpr.intImm 5] (DType.intT 32),
         Ty.tensor [ShapeExpr.intImm 3, ShapeExpr.intImm 6] (DType.intT 32)]) =
      .error (.dimensionMismatch 5 6) ∧
    (∀ f : Ty, ConcreteConcatRel (Ty.tuple [f]) = .error .invalidArgument) ∧
    ConcreteConcatRel (Ty.tuple []) = .error .invalidArgument := by
  refine ⟨?_, ?_, rfl, rfl, ?_, rfl⟩
  · intro p0 p1 ps suffix
    have hlen : 1 < (List.map (mkConcatField suffix) (p0 :: p1 :: ps)).length := by
      simp
    have hget0 : (List.map (mkConcatField suffix) (p0 :: p1 :: ps)).get? 0 =
        some (Ty.tensor (ShapeExpr.intImm p0.1 :: List.map ShapeExpr.intImm suffix)
          p0.2) := by
      simp [mkConcatField]
    have hdrop : (ShapeExpr.intImm p0.1 ::
        List.map ShapeExpr.intImm suffix).drop 1 = List.map ShapeExpr.intImm suffix := by
      simp
    simp only [ConcreteConcatRel, if_pos hlen, hget0, hdrop, collectDims_map_intImm,
      concatFields_map]
  · intro a0 suffix d qs hlen hex
    have hne : qs ≠ [] := by
      rcases hex with ⟨q, hq, _⟩
      exact List.ne_nil_of_mem hq
    have hlen2 : 1 < (List.map (mkField d) ((a0, suffix) :: qs)).length := by
      simp only [List.length_map, List.length_cons]
      have := List.length_pos.mpr hne
      omega
    have hget0 : (List.map (mkField d) ((a0, suffix) :: qs)).get? 0 =
        some (Ty.tensor (List.map ShapeExpr.intImm (a0 :: suffix)) d) := by
      simp [mkField]
    have hdrop : (List.map ShapeExpr.intImm (a0 :: suffix)).drop 1 =
        List.map ShapeExpr.intImm suffix := by
      simp
    obtain ⟨x, y, hcf0⟩ := concatFields_mismatch suffix d ((a0, suffix) :: qs)
      (by
        intro q hq
        rcases List.mem_cons.mp hq with rfl | hq2
        · rfl
        · exact hlen q hq2)
      (by
        rcases hex with ⟨q, hq, hneq⟩
        exact ⟨q, List.mem_cons_of_mem _ hq, hneq⟩)
    refine ⟨x, y, ?_⟩
    simp only [ConcreteConcatRel, if_pos hlen2, hget0, hdrop, collectDims_map_intImm,
      hcf0]
  · intro f
    cases f <;> rfl

/-- C6 witness: the theorem's mismatch clause applied at a concrete
two-field tuple whose second suffix differs from the first. -/
theorem c6_concat_resolver_witness :
    ∃ x y, ConcreteConcatRel (Ty.tuple (List.map (mkField (DType.intT 32))
        ((2, [5]) :: [(3, [6])]))) = .error (.dimensionMismatch x y) := by
  exact c6_concat_resolver.2.1 2 [5] (DType.intT 32) [(3, [6])]
    (by intro q hq; simp at hq; rw [hq]; rfl) ⟨(3, [6]), by simp, by decide⟩

/-- C10: the concatenation shape resolver never compares field ranks: a
field of strictly smaller rank than the first is accepted with only its
existing positions checked — concatenating shapes 2,5 and 3 succeeds
with output 5,5, and in general a field whose suffix is a prefix of the
expected dims list passes — while a field of strictly greater rank
drives the loop index past the recorded dims list, an out-of-bounds
access at position i - 1, as both the general lemma and the concrete
instance with shapes 2,5 and 3,5,7 show. -/
theorem c10_concat_rank_oob :
    ConcreteConcatRel (Ty.tuple
        [Ty.tensor [ShapeExpr.intImm 2, ShapeExpr.intImm 5] (DType.intT 32),
         Ty.tensor [ShapeExpr.intImm 3] (DType.intT 32)]) =
      .ok (Ty.tensor [ShapeExpr.intImm 5, ShapeExpr.intImm 5] (DType.intT 32)) ∧
    (∀ (dims extra : List Int) (a : Int),
      concatFieldGo (dims ++ extra) 0 (List.map ShapeExpr.intImm (a :: dims)) =
        .ok [a]) ∧
    (∀ (dims : List Int) (a : Int) (rest : List Int), rest ≠ [] →
      concatFieldGo dims 0 (List.map ShapeExpr.intImm (a :: (dims ++ rest))) =
        .error .outOfBounds) ∧
    ConcreteConcatRel (Ty.tuple
        [Ty.tensor [ShapeExpr.intImm 2, ShapeExpr.intImm 5] (DType.intT 32),
         Ty.tensor [ShapeExpr.intImm 3, ShapeExpr.intImm 5, ShapeExpr.intImm 7]
           (DType.intT 32)]) =
      .error .outOfBounds := by
  exact ⟨rfl, concatFieldGo_accept, concatFieldGo_oob, rfl⟩

/-- C10 witness: the out-of-bounds clause applied at a concrete field
one rank longer than the expected suffix. -/
theorem c10_concat_rank_oob_witness :
    concatFieldGo [5] 0 (List.map ShapeExpr.intImm (3 :: ([5] ++ [7]))) =
      .error .outOfBounds := by
  exact c10_concat_rank_oob.2.2.1 [5] 3 [7] (by decide)

end TypeRelations
